import Mathlib

set_option maxRecDepth 10000

namespace MidiMixer

/- Constants from src/audio/engine.go. -/

def sampleRate : ℕ := 44100

def MinBPM : ℕ := 60

def MaxBPM : ℕ := 200

def DefaultBPM : ℕ := 120

/- Beat presets (src/audio/engine.go, BeatPresets).  The emoji prefixes of the
names are dropped as irrelevant decoration; the four 16-entry hit grids are
reproduced verbatim. -/

structure BeatPreset where
  Name : String
  Description : String
  Kick : List ℕ
  Snare : List ℕ
  HiHat : List ℕ
  Bass : List ℕ
  deriving DecidableEq, Inhabited

def BeatPresets : List BeatPreset := [
  { Name := "Trap Fire", Description := "Hard-hitting trap beat with rolling hi-hats",
    Kick := [1, 0, 0, 0, 0, 0, 1, 0, 0, 0, 1, 0, 0, 0, 0, 0],
    Snare := [0, 0, 0, 0, 1, 0, 0, 0, 0, 0, 0, 0, 1, 0, 0, 0],
    HiHat := [1, 1, 1, 1, 1, 1, 1, 1, 1, 1, 1, 1, 1, 1, 1, 1],
    Bass := [1, 0, 0, 1, 0, 0, 1, 0, 1, 0, 0, 1, 0, 0, 0, 1] },
  { Name := "Rock Solid", Description := "Classic rock beat - simple but powerful",
    Kick := [1, 0, 0, 0, 1, 0, 0, 0, 1, 0, 0, 0, 1, 0, 0, 0],
    Snare := [0, 0, 0, 0, 1, 0, 0, 0, 0, 0, 0, 0, 1, 0, 0, 0],
    HiHat := [1, 0, 1, 0, 1, 0, 1, 0, 1, 0, 1, 0, 1, 0, 1, 0],
    Bass := [1, 0, 0, 0, 0, 0, 1, 0, 1, 0, 0, 0, 0, 0, 0, 0] },
  { Name := "Disco Funk", Description := "Groovy disco vibes with syncopated rhythm",
    Kick := [1, 0, 0, 1, 0, 0, 1, 0, 0, 0, 1, 0, 1, 0, 0, 0],
    Snare := [0, 0, 0, 0, 1, 0, 0, 1, 0, 0, 0, 0, 1, 0, 0, 0],
    HiHat := [0, 1, 1, 1, 0, 1, 1, 1, 0, 1, 1, 1, 0, 1, 1, 1],
    Bass := [1, 0, 1, 0, 0, 1, 0, 1, 1, 0, 1, 0, 0, 1, 0, 1] },
  { Name := "Lo-Fi Chill", Description := "Relaxed, laid-back beats to study to",
    Kick := [1, 0, 0, 0, 0, 0, 1, 0, 0, 0, 0, 0, 1, 0, 0, 0],
    Snare := [0, 0, 0, 0, 1, 0, 0, 0, 0, 0, 0, 1, 0, 0, 1, 0],
    HiHat := [1, 0, 0, 1, 0, 0, 1, 0, 0, 1, 0, 0, 1, 0, 0, 1],
    Bass := [1, 0, 0, 0, 0, 1, 0, 0, 1, 0, 0, 0, 0, 1, 0, 0] },
  { Name := "House Party", Description := "Four-on-the-floor house music energy",
    Kick := [1, 0, 0, 0, 1, 0, 0, 0, 1, 0, 0, 0, 1, 0, 0, 0],
    Snare := [0, 0, 0, 0, 1, 0, 0, 0, 0, 0, 0, 0, 1, 0, 0, 0],
    HiHat := [0, 0, 1, 0, 0, 0, 1, 0, 0, 0, 1, 0, 0, 0, 1, 0],
    Bass := [1, 0, 0, 1, 0, 0, 0, 1, 1, 0, 0, 1, 0, 0, 0, 1] },
  { Name := "Dubstep Drop", Description := "Heavy wobbles and aggressive rhythms",
    Kick := [1, 0, 0, 0, 0, 0, 0, 0, 1, 0, 0, 1, 0, 0, 0, 0],
    Snare := [0, 0, 0, 0, 1, 0, 0, 0, 0, 0, 0, 0, 1, 0, 1, 0],
    HiHat := [1, 1, 0, 1, 1, 1, 0, 1, 1, 1, 0, 1, 1, 1, 0, 1],
    Bass := [1, 0, 1, 0, 0, 0, 1, 1, 0, 0, 1, 0, 0, 1, 1, 0] },
  { Name := "Drum and Bass", Description := "Fast-paced jungle rhythms",
    Kick := [1, 0, 0, 0, 0, 0, 1, 0, 0, 0, 0, 0, 0, 0, 1, 0],
    Snare := [0, 0, 0, 0, 1, 0, 0, 0, 0, 0, 1, 0, 0, 0, 0, 0],
    HiHat := [1, 0, 1, 1, 0, 1, 1, 0, 1, 1, 0, 1, 1, 0, 1, 1],
    Bass := [1, 0, 0, 1, 0, 1, 0, 0, 1, 0, 0, 1, 0, 1, 0, 0] },
  { Name := "Latin Heat", Description := "Salsa-inspired rhythm with clave pattern",
    Kick := [1, 0, 0, 1, 0, 0, 1, 0, 0, 0, 1, 0, 1, 0, 0, 0],
    Snare := [0, 0, 0, 1, 0, 0, 0, 0, 0, 0, 1, 0, 0, 0, 1, 0],
    HiHat := [1, 0, 1, 0, 1, 0, 1, 0, 1, 0, 1, 0, 1, 0, 1, 0],
    Bass := [1, 0, 0, 0, 1, 0, 0, 1, 0, 0, 1, 0, 0, 1, 0, 0] }]

/- ChannelState (src/audio/engine.go).  float64 fields are embedded as ℚ:
every value the program ever stores in them is a ratio of small integers. -/

structure ChannelState where
  Volume : ℚ
  Pan : ℚ
  Mute : Bool
  Solo : Bool
  Frequency : ℚ
  deriving DecidableEq, Inhabited

/- Engine (src/audio/engine.go).  The oto device handle, the locks and the
waveform ring are omitted: no claim touches them.  samplePos starts at 0 and
only increments, so it is embedded as ℕ; PatternIndex is a Go int, ℤ. -/

structure Engine where
  channels : List ChannelState
  master : ℚ
  running : Bool
  samplePos : ℕ
  envelopes : List ℚ
  BPM : ℕ
  PatternIndex : ℤ
  CurrentStep : ℕ
  deriving DecidableEq

/- Per-role defaults of NewEngine: (volume, frequency) pairs. -/

def engineDefaults : List (ℚ × ℚ) :=
  [(0.9, 60), (0.7, 200), (0.5, 8000), (0.8, 55),
   (0.6, 440), (0.5, 523), (0.4, 220), (0.3, 1000)]

def initChannel (i : ℕ) : ChannelState :=
  let p := engineDefaults.getD i (0.7, 440)
  { Volume := p.1, Pan := 0, Mute := false, Solo := false, Frequency := p.2 }

/- NewEngine (src/audio/engine.go), minus the device acquisition. -/

def engineInit (numChannels : ℕ) : Engine :=
  { channels := (List.range numChannels).map initChannel
    master := 0.8
    running := true
    samplePos := 0
    envelopes := List.replicate numChannels 0
    BPM := DefaultBPM
    PatternIndex := 0
    CurrentStep := 0 }

/- In-place update of the element at one position, leaving the list unchanged
when the position is out of range (the setters guard the range themselves). -/

def modifyAt {α : Type} (f : α → α) : List α → ℕ → List α
  | [], _ => []
  | c :: cs, 0 => f c :: cs
  | c :: cs, n + 1 => c :: modifyAt f cs n

/- Engine setters (src/audio/engine.go).  Each guards
channel greater-or-equal 0 and channel below len(e.channels), else no-op. -/

def Engine.setChannelVolume (e : Engine) (channel : ℤ) (value : ℕ) : Engine :=
  if 0 ≤ channel ∧ channel < (e.channels.length : ℤ) then
    { e with channels :=
        modifyAt (fun c => { c with Volume := (value : ℚ) / 127 }) e.channels channel.toNat }
  else e

def Engine.setChannelPan (e : Engine) (channel : ℤ) (value : ℕ) : Engine :=
  if 0 ≤ channel ∧ channel < (e.channels.length : ℤ) then
    { e with channels :=
        modifyAt (fun c => { c with Pan := ((value : ℚ) - 64) / 64 }) e.channels channel.toNat }
  else e

def Engine.setChannelMute (e : Engine) (channel : ℤ) (muted : Bool) : Engine :=
  if 0 ≤ channel ∧ channel < (e.channels.length : ℤ) then
    { e with channels :=
        modifyAt (fun c => { c with Mute := muted }) e.channels channel.toNat }
  else e

def Engine.setChannelSolo (e : Engine) (channel : ℤ) (solo : Bool) : Engine :=
  if 0 ≤ channel ∧ channel < (e.channels.length : ℤ) then
    { e with channels :=
        modifyAt (fun c => { c with Solo := solo }) e.channels channel.toNat }
  else e

def Engine.setMasterVolume (e : Engine) (value : ℕ) : Engine :=
  { e with master := (value : ℚ) / 127 }

def Engine.setBPM (e : Engine) (bpm : ℤ) : Engine :=
  { e with BPM := (if bpm < (MinBPM : ℤ) then (MinBPM : ℤ)
                   else if bpm > (MaxBPM : ℤ) then (MaxBPM : ℤ) else bpm).toNat }

/- SetPattern / NextPattern / PrevPattern (src/audio/engine.go).  Go integer
remainder on nonnegative operands is Int.tmod. -/

def Engine.setPattern (e : Engine) (index : ℤ) : Engine :=
  if 0 ≤ index ∧ index < (BeatPresets.length : ℤ) then
    { e with PatternIndex := index }
  else e

def Engine.nextPattern (e : Engine) : Engine :=
  { e with PatternIndex := (e.PatternIndex + 1).tmod (BeatPresets.length : ℤ) }

def Engine.prevPattern (e : Engine) : Engine :=
  let j := e.PatternIndex - 1
  { e with PatternIndex := if j < 0 then (BeatPresets.length : ℤ) - 1 else j }

/- Render path, src/audio/engine.go audioStream.Read. -/

/- samplesPerBeat: sampleRate * 60 / bpm / 4, Go integer division.  The code
names the quantity samplesPerBeat although it is the length of one 16th-note
step; the spec calls it samplesPerStep. -/

def samplesPerBeat (bpm : ℕ) : ℕ := sampleRate * 60 / bpm / 4

/- step := int(samplePos / samplesPerBeat) % 16. -/

def stepIndex (spb n : ℕ) : ℕ := n / spb % 16

/- anySolo scan at the top of Read. -/

def anySolo (cs : List ChannelState) : Bool := cs.any (fun c => c.Solo)

/- The skip condition of the per-channel loop:
if ch.Mute or (anySolo and not ch.Solo) then continue. -/

def renderSkip (asolo : Bool) (c : ChannelState) : Bool := c.Mute || (asolo && !c.Solo)

/- The audibility rule in the words of the spec (section 4.1 step 4 and the
solo invariant of section 8): with some channel soloed only solo-and-unmuted
channels render, otherwise every unmuted channel renders. -/

def audibleSpec (cs : List ChannelState) (c : ChannelState) : Bool :=
  if anySolo cs then c.Solo && !c.Mute else !c.Mute

/- Accumulation of the per-channel contributions into the stereo sums.
contrib idx c stands for the pair (sample times cos theta, sample times
sin theta) that the loop body adds for channel idx, with the synthesis,
volume scaling and pan law folded into it; the gate keep decides whether the
loop body runs at all for that channel. -/

def gatedStereoSums (keep : ChannelState → Bool) (contrib : ℕ → ChannelState → ℚ × ℚ) :
    ℕ → List ChannelState → ℚ × ℚ
  | _, [] => (0, 0)
  | i, c :: rest =>
    let acc := gatedStereoSums keep contrib (i + 1) rest
    if keep c then ((contrib i c).1 + acc.1, (contrib i c).2 + acc.2) else acc

/- The stereo sums the code computes: a channel runs exactly when the skip
condition fails. -/

def renderStereoSums (contrib : ℕ → ChannelState → ℚ × ℚ) (cs : List ChannelState) : ℚ × ℚ :=
  gatedStereoSums (fun c => !renderSkip (anySolo cs) c) contrib 0 cs

/- Envelope machinery of the sequencer.  A hit fires when the sample counter
is at a step boundary and the active pattern has a 1 at the step index. -/

def envDecay : ℚ := 0.9997

def hitAt (patt : List ℕ) (spb n : ℕ) : Bool :=
  (n % spb == 0) && (patt.getD (stepIndex spb n) 0 == 1)

/- envAt patt spb n is the value of the envelope at sample n at the moment it
has just been re-armed by the trigger phase of sample n (the point where the
code and the spec both say the envelope equals 1.0 on a hit); the decay of
sample n multiplies it by envDecay before sample n + 1 reads it.  The
envelope starts at 0 at engine construction. -/

def envAt (patt : List ℕ) (spb : ℕ) : ℕ → ℚ
  | 0 => if hitAt patt spb 0 then 1 else 0
  | n + 1 => if hitAt patt spb (n + 1) then 1 else envAt patt spb n * envDecay

/- The kick row of the Rock Solid preset: hits exactly at steps 0, 4, 8, 12. -/

def rockKick : List ℕ := (BeatPresets.getD 1 default).Kick

/- softClip (src/audio/engine.go). -/

def softClip (x : ℚ) : ℚ :=
  if x > 1 then 1
  else if x < -1 then -1
  else 1.5 * x - 0.5 * x * x * x

/- Mixer coordination layer, src/mixer/state.go. -/

structure MixChannel where
  ID : ℕ
  Name : String
  Volume : ℕ
  Pan : ℕ
  Mute : Bool
  Solo : Bool
  deriving DecidableEq, Inhabited

/- Mixer state.  The MIDI handler is modelled by returning the list of
(channel id, CC volume value) pairs an operation sends; the engine handle is
carried where a claim compares the two views. -/

structure MixState where
  Channels : List MixChannel
  SelectedIndex : ℤ
  deriving DecidableEq

def selectedMix (s : MixState) : Option MixChannel :=
  if 0 ≤ s.SelectedIndex ∧ s.SelectedIndex < (s.Channels.length : ℤ) then
    s.Channels.get? s.SelectedIndex.toNat
  else none

def mixAnySolo (cs : List MixChannel) : Bool := cs.any (fun c => c.Solo)

/- updateSoloState (src/mixer/state.go): the CC volume it sends for each
channel, in the branch structure of the source. -/

def soloStateVolume (asolo : Bool) (ch : MixChannel) : ℕ :=
  if !asolo then (if !ch.Mute then ch.Volume else 0)
  else (if ch.Solo && !ch.Mute then ch.Volume else 0)

def updateSoloSends (cs : List MixChannel) : List (ℕ × ℕ) :=
  cs.map (fun ch => (ch.ID, soloStateVolume (mixAnySolo cs) ch))

/- The outbound volume the engine audibility rule prescribes for a channel:
the channel volume when audible under the solo/mute rule, 0 otherwise. -/

def audibleVolumeRule (cs : List MixChannel) (c : MixChannel) : ℕ :=
  if (if mixAnySolo cs then c.Solo && !c.Mute else !c.Mute) then c.Volume else 0

/- ToggleMute (src/mixer/state.go): flips the selected channel and sends one
CC for it alone, 0 when now muted, the channel volume when now unmuted.
The result pairs the new state with the sent (id, volume) list. -/

def MixState.ToggleMute (s : MixState) : MixState × List (ℕ × ℕ) :=
  match selectedMix s with
  | none => (s, [])
  | some ch =>
    let newMute := !ch.Mute
    let s1 : MixState :=
      { s with Channels :=
          modifyAt (fun c => { c with Mute := newMute }) s.Channels s.SelectedIndex.toNat }
    (s1, [(ch.ID, if newMute then 0 else ch.Volume)])

/- ToggleSolo (src/mixer/state.go): flips the selected channel solo flag and
then runs updateSoloState over the new channel list. -/

def MixState.ToggleSolo (s : MixState) : MixState × List (ℕ × ℕ) :=
  match selectedMix s with
  | none => (s, [])
  | some ch =>
    let newSolo := !ch.Solo
    let s1 : MixState :=
      { s with Channels :=
          modifyAt (fun c => { c with Solo := newSolo }) s.Channels s.SelectedIndex.toNat }
    (s1, updateSoloSends s1.Channels)

/- Coordination layer plus engine, for the claims comparing the two views
(src/mixer/state.go setters and the reset handler of src/main.go). -/

structure AppState where
  mix : MixState
  eng : Engine
  deriving DecidableEq

/- State.SetChannelVolume (src/mixer/state.go): in-range guard, writes the
mixer record and pushes the same value to the engine; else nothing. -/

def AppState.SetChannelVolume (s : AppState) (channelID : ℤ) (value : ℕ) : AppState :=
  if 0 ≤ channelID ∧ channelID < (s.mix.Channels.length : ℤ) then
    let newChans := modifyAt (fun c => { c with Volume := value }) s.mix.Channels channelID.toNat
    { s with mix := { s.mix with Channels := newChans },
             eng := s.eng.setChannelVolume channelID value }
  else s

def AppState.SetChannelPan (s : AppState) (channelID : ℤ) (value : ℕ) : AppState :=
  if 0 ≤ channelID ∧ channelID < (s.mix.Channels.length : ℤ) then
    let newChans := modifyAt (fun c => { c with Pan := value }) s.mix.Channels channelID.toNat
    { s with mix := { s.mix with Channels := newChans },
             eng := s.eng.setChannelPan channelID value }
  else s

/- The reset-to-defaults handler (src/main.go, key "0"): writes the default
field values into the selected mixer channel and touches nothing else — in
particular it performs no call into the audio engine. -/

def AppState.resetSelected (s : AppState) : AppState :=
  match selectedMix s.mix with
  | none => s
  | some _ =>
    let reset := fun (c : MixChannel) =>
      { c with Volume := 100, Pan := 64, Mute := false, Solo := false }
    { s with mix :=
        { s.mix with Channels := modifyAt reset s.mix.Channels s.mix.SelectedIndex.toNat } }

/- Conversion an engine push applies to a mixer volume and pan
(Engine.setChannelVolume and Engine.setChannelPan). -/

def volumeToEngine (v : ℕ) : ℚ := (v : ℚ) / 127

def panToEngine (v : ℕ) : ℚ := ((v : ℚ) - 64) / 64

/- Index maps of the pattern cycling operations, used to track the pattern
index through iterated engine operations. -/

def nextIdx (i : ℤ) : ℤ := (i + 1).tmod (BeatPresets.length : ℤ)

def prevIdx (i : ℤ) : ℤ :=
  if i - 1 < 0 then (BeatPresets.length : ℤ) - 1 else i - 1

/- Helper lemmas. -/

theorem renderSkip_eq_audible (cs : List ChannelState) (c : ChannelState) :
    (!renderSkip (anySolo cs) c) = audibleSpec cs c := by
  unfold renderSkip audibleSpec
  cases h : anySolo cs <;> cases c.Mute <;> cases c.Solo <;> simp

theorem gatedStereoSums_congr (k1 k2 : ChannelState → Bool)
    (contrib : ℕ → ChannelState → ℚ × ℚ) :
    ∀ (i : ℕ) (cs : List ChannelState), (∀ c ∈ cs, k1 c = k2 c) →
      gatedStereoSums k1 contrib i cs = gatedStereoSums k2 contrib i cs := by
  intro i cs
  induction cs generalizing i with
  | nil => intro _; rfl
  | cons c rest ih =>
    intro h
    have hc : k1 c = k2 c := h c (List.mem_cons_self c rest)
    have hrest : ∀ x ∈ rest, k1 x = k2 x := fun x hx => h x (List.mem_cons_of_mem c hx)
    simp only [gatedStereoSums, hc, ih (i + 1) hrest]

theorem nextPattern_idx (e : Engine) : (e.nextPattern).PatternIndex = nextIdx e.PatternIndex :=
  rfl

theorem prevPattern_idx (e : Engine) : (e.prevPattern).PatternIndex = prevIdx e.PatternIndex :=
  rfl

theorem iterate_nextPattern_idx :
    ∀ (m : ℕ) (e : Engine), (Engine.nextPattern^[m] e).PatternIndex = nextIdx^[m] e.PatternIndex := by
  intro m
  induction m with
  | zero => intro e; rfl
  | succ p ih =>
    intro e
    rw [Function.iterate_succ_apply, Function.iterate_succ_apply, ih, nextPattern_idx]

/-- Claim C1: in the per-sample render, a channel contributes to the stereo
sums exactly when it is audible: with any channel soloed, audible(c) is
c.Solo and not c.Mute; otherwise audible(c) is not c.Mute.  The first
conjunct replaces the skip gate of the render loop by the audibility rule of
the spec without changing the computed stereo sums; the second states the
gate equivalence pointwise for every channel. -/
theorem render_audibility (cs : List ChannelState) (contrib : ℕ → ChannelState → ℚ × ℚ) :
    renderStereoSums contrib cs = gatedStereoSums (fun c => audibleSpec cs c) contrib 0 cs ∧
    ∀ c, (!renderSkip (anySolo cs) c) = audibleSpec cs c := by
  constructor
  · exact gatedStereoSums_congr _ _ contrib 0 cs (fun c _ => renderSkip_eq_audible cs c)
  · exact fun c => renderSkip_eq_audible cs c

/-- Claim C6, counterexample: SetPattern does not reduce the index modulo the
preset-table length.  At index 9 the claim demands 9 mod 8 = 1 but the code
leaves the index at 0; at index -1 the claim demands 7, the code again leaves
the index at 0. -/
theorem setPattern_cex :
    ((engineInit 8).setPattern 9).PatternIndex = 0 ∧ (9 : ℤ) % 8 = 1 ∧
    ((engineInit 8).setPattern (-1)).PatternIndex = 0 ∧ (-1 : ℤ) % 8 = 7 ∧
    (0 : ℤ) ≠ 1 ∧ (0 : ℤ) ≠ 7 := by
  refine ⟨rfl, by decide, rfl, by decide, by decide, by decide⟩

/-- Claim C6, amended: SetPattern(idx) stores idx when 0 ≤ idx < patternCount
and otherwise leaves the whole engine unchanged (a silent no-op); it performs
no modular wrap-around.  Wrapping is provided only by NextPattern and
PrevPattern. -/
theorem setPattern_amended (e : Engine) (idx : ℤ) :
    (0 ≤ idx ∧ idx < (BeatPresets.length : ℤ) → (e.setPattern idx).PatternIndex = idx) ∧
    (¬(0 ≤ idx ∧ idx < (BeatPresets.length : ℤ)) → e.setPattern idx = e) := by
  constructor <;> intro h <;> simp [Engine.setPattern, h]

/-- Witness for setPattern_amended at engine engineInit 8 and index 3. -/
theorem setPattern_amended_witness :
    ((0 : ℤ) ≤ 3 ∧ (3 : ℤ) < (BeatPresets.length : ℤ)) ∧
    ((engineInit 8).setPattern 3).PatternIndex = 3 :=
  ⟨by decide, (setPattern_amended (engineInit 8) 3).1 (by decide)⟩

/-- Claim C7: from any reachable pattern index (the reachable indices are
exactly 0 ≤ i < patternCount = 8), applying NextPattern patternCount times
returns the index to its original value, and PrevPattern and NextPattern are
mutually inverse on the index. -/
theorem pattern_cycling (e : Engine) (h0 : 0 ≤ e.PatternIndex)
    (h1 : e.PatternIndex < (BeatPresets.length : ℤ)) :
    (Engine.nextPattern^[BeatPresets.length] e).PatternIndex = e.PatternIndex ∧
    (e.nextPattern.prevPattern).PatternIndex = e.PatternIndex ∧
    (e.prevPattern.nextPattern).PatternIndex = e.PatternIndex := by
  have hlen : (BeatPresets.length : ℤ) = 8 := by decide
  rw [hlen] at h1
  refine ⟨?_, ?_, ?_⟩
  · rw [iterate_nextPattern_idx]
    set i := e.PatternIndex with hi
    interval_cases i <;> decide
  · rw [prevPattern_idx, nextPattern_idx]
    set i := e.PatternIndex with hi
    interval_cases i <;> decide
  · rw [nextPattern_idx, prevPattern_idx]
    set i := e.PatternIndex with hi
    interval_cases i <;> decide

/-- Witness for pattern_cycling at the freshly constructed engine, whose
pattern index is 0. -/
theorem pattern_cycling_witness :
    ((0 : ℤ) ≤ (engineInit 8).PatternIndex ∧
      (engineInit 8).PatternIndex < (BeatPresets.length : ℤ)) ∧
    (Engine.nextPattern^[BeatPresets.length] (engineInit 8)).PatternIndex =
      (engineInit 8).PatternIndex :=
  ⟨⟨by decide, by decide⟩, (pattern_cycling (engineInit 8) (by decide) (by decide)).1⟩

/-- Claim C10: every engine setter and the coordination-layer volume and pan
setters are silent no-ops on an out-of-range channel index: they are total
functions (no error value in their result type) and return the state
unchanged in every field, channels, master volume and sequencer state
included. -/
theorem oob_setters_noop (e : Engine) (s : AppState) (idx : ℤ) (v : ℕ) (b : Bool) :
    (¬(0 ≤ idx ∧ idx < (e.channels.length : ℤ)) →
      e.setChannelVolume idx v = e ∧ e.setChannelPan idx v = e ∧
      e.setChannelMute idx b = e ∧ e.setChannelSolo idx b = e) ∧
    (¬(0 ≤ idx ∧ idx < (s.mix.Channels.length : ℤ)) →
      s.SetChannelVolume idx v = s ∧ s.SetChannelPan idx v = s) := by
  constructor
  · intro h
    refine ⟨?_, ?_, ?_, ?_⟩ <;>
      simp [Engine.setChannelVolume, Engine.setChannelPan, Engine.setChannelMute,
        Engine.setChannelSolo, h]
  · intro h
    refine ⟨?_, ?_⟩ <;> simp [AppState.SetChannelVolume, AppState.SetChannelPan, h]

/-- Witness for oob_setters_noop: index 99 on an 8-channel engine and on an
app state with an empty mixer, both untouched. -/
theorem oob_setters_noop_witness :
    (engineInit 8).setChannelVolume 99 64 = engineInit 8 ∧
    AppState.SetChannelVolume ⟨⟨[], 0⟩, engineInit 8⟩ 99 64 = ⟨⟨[], 0⟩, engineInit 8⟩ :=
  ⟨((oob_setters_noop (engineInit 8) ⟨⟨[], 0⟩, engineInit 8⟩ 99 64 true).1 (by decide)).1,
   ((oob_setters_noop (engineInit 8) ⟨⟨[], 0⟩, engineInit 8⟩ 99 64 true).2 (by decide)).1⟩

/- Setter call sequences for the channel-bounds invariant. -/

inductive EngOp where
  | vol : ℤ → ℕ → EngOp
  | pan : ℤ → ℕ → EngOp
  deriving DecidableEq

def EngOp.value : EngOp → ℕ
  | EngOp.vol _ v => v
  | EngOp.pan _ v => v

def applyOp (e : Engine) : EngOp → Engine
  | EngOp.vol i v => e.setChannelVolume i v
  | EngOp.pan i v => e.setChannelPan i v

def applyOps (e : Engine) (ops : List EngOp) : Engine := ops.foldl applyOp e

/- The per-channel bounds invariant of the spec data model. -/

def ChInv (c : ChannelState) : Prop :=
  0 ≤ c.Volume ∧ c.Volume ≤ 1 ∧ -1 ≤ c.Pan ∧ c.Pan ≤ 1

theorem modifyAt_forall {α : Type} {P : α → Prop} (f : α → α)
    (hf : ∀ c, P c → P (f c)) :
    ∀ (l : List α) (i : ℕ), (∀ c ∈ l, P c) → ∀ c ∈ modifyAt f l i, P c := by
  intro l
  induction l with
  | nil => intro i _ c hc; simp [modifyAt] at hc
  | cons a rest ih =>
    intro i h c hc
    cases i with
    | zero =>
      simp only [modifyAt, List.mem_cons] at hc
      rcases hc with hc | hc
      · exact hc ▸ hf a (h a (List.mem_cons_self a rest))
      · exact h c (List.mem_cons_of_mem a hc)
    | succ j =>
      simp only [modifyAt, List.mem_cons] at hc
      rcases hc with hc | hc
      · exact hc ▸ h a (List.mem_cons_self a rest)
      · exact ih j (fun x hx => h x (List.mem_cons_of_mem a hx)) c hc

theorem initChannel_inv (i : ℕ) : ChInv (initChannel i) := by
  rcases Nat.lt_or_ge i 8 with h | h
  · interval_cases i <;> exact ⟨by norm_num [initChannel, engineDefaults],
      by norm_num [initChannel, engineDefaults], by norm_num [initChannel, engineDefaults],
      by norm_num [initChannel, engineDefaults]⟩
  · have hd : engineDefaults.getD i (0.7, 440) = (0.7, 440) :=
      List.getD_eq_default _ _ (by simp [engineDefaults]; omega)
    refine ⟨?_, ?_, ?_, ?_⟩ <;> simp only [initChannel, hd] <;> norm_num

theorem setChannelVolume_inv (e : Engine) (i : ℤ) (v : ℕ) (hv : v ≤ 127)
    (h : ∀ c ∈ e.channels, ChInv c) :
    ∀ c ∈ (e.setChannelVolume i v).channels, ChInv c := by
  unfold Engine.setChannelVolume
  split
  · refine modifyAt_forall _ ?_ e.channels i.toNat h
    intro c hc
    refine ⟨?_, ?_, hc.2.2.1, hc.2.2.2⟩
    · exact div_nonneg (by exact_mod_cast Nat.zero_le v) (by norm_num)
    · rw [div_le_one (by norm_num)]
      exact_mod_cast hv
  · exact h

theorem setChannelPan_inv (e : Engine) (i : ℤ) (v : ℕ) (hv : v ≤ 127)
    (h : ∀ c ∈ e.channels, ChInv c) :
    ∀ c ∈ (e.setChannelPan i v).channels, ChInv c := by
  unfold Engine.setChannelPan
  split
  · refine modifyAt_forall _ ?_ e.channels i.toNat h
    intro c hc
    have hv' : (v : ℚ) ≤ 127 := by exact_mod_cast hv
    have hv0 : (0 : ℚ) ≤ (v : ℚ) := by exact_mod_cast Nat.zero_le v
    refine ⟨hc.1, hc.2.1, ?_, ?_⟩
    · rw [le_div_iff₀ (by norm_num : (0 : ℚ) < 64)]
      linarith
    · rw [div_le_one (by norm_num : (0 : ℚ) < 64)]
      linarith
  · exact h

theorem applyOps_inv :
    ∀ (ops : List EngOp) (e : Engine), (∀ op ∈ ops, EngOp.value op ≤ 127) →
      (∀ c ∈ e.channels, ChInv c) → ∀ c ∈ (applyOps e ops).channels, ChInv c := by
  intro ops
  induction ops with
  | nil => intro e _ h; exact h
  | cons op rest ih =>
    intro e hops h
    have hop : EngOp.value op ≤ 127 := hops op (List.mem_cons_self op rest)
    have hrest : ∀ x ∈ rest, EngOp.value x ≤ 127 :=
      fun x hx => hops x (List.mem_cons_of_mem op hx)
    have hnext : ∀ c ∈ (applyOp e op).channels, ChInv c := by
      cases op with
      | vol i v => exact setChannelVolume_inv e i v hop h
      | pan i v => exact setChannelPan_inv e i v hop h
    exact ih (applyOp e op) hrest hnext

/-- Claim C8, counterexample: the setters accept the full uint8 range without
clamping, so SetChannelVolume with value 255 drives the channel volume to
255/127, which exceeds 1; the claimed invariant Volume in [0,1] fails. -/
theorem channel_bounds_cex :
    (((engineInit 8).setChannelVolume 0 255).channels.getD 0 default).Volume = 255 / 127 ∧
    ¬((255 / 127 : ℚ) ≤ 1) := by
  constructor
  · rfl
  · norm_num

/-- Claim C8, amended: after engine construction and any sequence of
SetChannelVolume and SetChannelPan calls whose values stay in the valid MIDI
range 0..127 (values 128..255 are accepted unclamped and break the bound),
every channel satisfies Volume in [0,1] and Pan in [-1,1]. -/
theorem channel_bounds_amended (n : ℕ) (ops : List EngOp)
    (hops : ∀ op ∈ ops, EngOp.value op ≤ 127) :
    ∀ c ∈ (applyOps (engineInit n) ops).channels, ChInv c := by
  refine applyOps_inv ops (engineInit n) hops ?_
  intro c hc
  simp only [engineInit, List.mem_map] at hc
  rcases hc with ⟨i, _, rfl⟩
  exact initChannel_inv i

/-- Witness for channel_bounds_amended: two in-range setter calls on the
8-channel engine; the resulting channel list satisfies the invariant. -/
theorem channel_bounds_amended_witness :
    (∀ op ∈ [EngOp.vol 0 127, EngOp.pan 1 0], EngOp.value op ≤ 127) ∧
    ∀ c ∈ (applyOps (engineInit 8) [EngOp.vol 0 127, EngOp.pan 1 0]).channels, ChInv c :=
  ⟨by decide, channel_bounds_amended 8 [EngOp.vol 0 127, EngOp.pan 1 0] (by decide)⟩

/-- Claim C9: the reset-to-defaults handler writes Volume 100, Pan 64 and
clears Mute and Solo on the selected mixer channel, but performs no push into
the audio engine, so the engine channel keeps its stale value and the two
views diverge: here the engine volume stays 50/127 while the claim requires
100/127.  The theorem evaluates the code at the failing input, a state whose
channel 0 had been synced at volume 50 before the reset. -/
theorem reset_no_push_cex :
    (AppState.resetSelected
        ⟨⟨[⟨0, "KICK", 50, 64, false, false⟩], 0⟩,
          (engineInit 1).setChannelVolume 0 50⟩).mix.Channels.getD 0 default =
      ⟨0, "KICK", 100, 64, false, false⟩ ∧
    (AppState.resetSelected
        ⟨⟨[⟨0, "KICK", 50, 64, false, false⟩], 0⟩,
          (engineInit 1).setChannelVolume 0 50⟩).eng =
      (engineInit 1).setChannelVolume 0 50 ∧
    ((AppState.resetSelected
        ⟨⟨[⟨0, "KICK", 50, 64, false, false⟩], 0⟩,
          (engineInit 1).setChannelVolume 0 50⟩).eng.channels.getD 0 default).Volume =
      volumeToEngine 50 ∧
    volumeToEngine 50 ≠ volumeToEngine 100 := by
  refine ⟨rfl, rfl, rfl, by norm_num [volumeToEngine]⟩

/- Claim C5 helpers. -/

theorem soloStateVolume_eq_rule (a : Bool) (ch : MixChannel) :
    soloStateVolume a ch = (if (if a then ch.Solo && !ch.Mute else !ch.Mute) then ch.Volume else 0) := by
  cases a <;> cases hm : ch.Mute <;> cases hs : ch.Solo <;> simp [soloStateVolume, hm, hs]

/-- Claim C5, counterexample: with channel 0 soloed, unmuting channel 1 via
ToggleMute sends CC volume 90 for channel 1 although the audibility rule the
engine applies (any-solo gate) yields 0 for it, and ToggleMute sends only one
CC rather than recomputing all channels.  Concrete state: channel 0 solo and
unmuted at volume 100, channel 1 selected, muted, not solo, volume 90. -/
theorem toggleMute_cex :
    (MixState.ToggleMute ⟨[⟨0, "KICK", 100, 64, false, true⟩,
        ⟨1, "SNARE", 90, 64, true, false⟩], 1⟩).2 = [(1, 90)] ∧
    (MixState.ToggleMute ⟨[⟨0, "KICK", 100, 64, false, true⟩,
        ⟨1, "SNARE", 90, 64, true, false⟩], 1⟩).1.Channels =
      [⟨0, "KICK", 100, 64, false, true⟩, ⟨1, "SNARE", 90, 64, false, false⟩] ∧
    audibleVolumeRule
      [⟨0, "KICK", 100, 64, false, true⟩, ⟨1, "SNARE", 90, 64, false, false⟩]
      ⟨1, "SNARE", 90, 64, false, false⟩ = 0 ∧
    (90 : ℕ) ≠ 0 ∧
    (MixState.ToggleMute ⟨[⟨0, "KICK", 100, 64, false, true⟩,
        ⟨1, "SNARE", 90, 64, true, false⟩], 1⟩).2.length = 1 ∧
    ([⟨0, "KICK", 100, 64, false, true⟩,
      ⟨1, "SNARE", 90, 64, true, false⟩] : List MixChannel).length = 2 :=
  ⟨rfl, rfl, rfl, by decide, rfl, rfl⟩

/-- Claim C5, amended: the full recomputation under the engine audibility
rule holds for ToggleSolo (its updateSoloState pass sends, for every channel,
the channel volume when audible and 0 otherwise, exactly the engine rule),
while ToggleMute sends a single CC for the toggled channel alone with
mute-only logic — 0 when newly muted, the stored volume when newly unmuted —
ignoring the solo gate. -/
theorem outbound_volume_rule (cs : List MixChannel) (s : MixState) :
    updateSoloSends cs = cs.map (fun c => (c.ID, audibleVolumeRule cs c)) ∧
    (MixState.ToggleMute s).2 =
      (selectedMix s).elim [] (fun ch => [(ch.ID, if ch.Mute then ch.Volume else 0)]) ∧
    ((selectedMix s).isSome = true →
      (MixState.ToggleSolo s).2 = updateSoloSends (MixState.ToggleSolo s).1.Channels) := by
  refine ⟨?_, ?_, ?_⟩
  · simp only [updateSoloSends, audibleVolumeRule, soloStateVolume_eq_rule]
  · cases h : selectedMix s with
    | none => simp [MixState.ToggleMute, h]
    | some ch =>
      simp only [MixState.ToggleMute, h, Option.elim]
      cases hm : ch.Mute <;> simp [hm]
  · intro hsel
    cases h : selectedMix s with
    | none => rw [h] at hsel; simp at hsel
    | some ch => simp [MixState.ToggleSolo, h]

/-- Witness for outbound_volume_rule on a one-channel state with a valid
selection. -/
theorem outbound_volume_rule_witness :
    (selectedMix ⟨[⟨0, "KICK", 100, 64, false, false⟩], 0⟩).isSome = true ∧
    (MixState.ToggleSolo ⟨[⟨0, "KICK", 100, 64, false, false⟩], 0⟩).2 =
      updateSoloSends (MixState.ToggleSolo ⟨[⟨0, "KICK", 100, 64, false, false⟩], 0⟩).1.Channels :=
  ⟨rfl, (outbound_volume_rule [] ⟨[⟨0, "KICK", 100, 64, false, false⟩], 0⟩).2.2 rfl⟩

/- Claim C4 helpers. -/

theorem softClip_bounds (x : ℚ) : -1 ≤ softClip x ∧ softClip x ≤ 1 := by
  unfold softClip
  split_ifs with h1 h2
  · norm_num
  · norm_num
  · push_neg at h1 h2
    constructor
    · nlinarith [mul_nonneg (sq_nonneg (x + 1)) (by linarith : (0 : ℚ) ≤ 2 - x)]
    · nlinarith [mul_nonneg (sq_nonneg (x - 1)) (by linarith : (0 : ℚ) ≤ x + 2)]

theorem softClip_mono (x y : ℚ) (hxy : x ≤ y) : softClip x ≤ softClip y := by
  by_cases h1 : x > 1
  · have hy1 : y > 1 := lt_of_lt_of_le h1 hxy
    have hx : softClip x = 1 := by simp [softClip, h1]
    have hy : softClip y = 1 := by simp [softClip, hy1]
    rw [hx, hy]
  · by_cases h2 : x < -1
    · have hx : softClip x = -1 := by simp [softClip, h1, h2]
      rw [hx]
      exact (softClip_bounds y).1
    · push_neg at h1 h2
      have hx : softClip x = 1.5 * x - 0.5 * x * x * x := by
        simp [softClip, not_lt.mpr h1, not_lt.mpr h2]
      by_cases h3 : y > 1
      · have hy : softClip y = 1 := by simp [softClip, h3]
        rw [hx, hy]
        nlinarith [mul_nonneg (sq_nonneg (x - 1)) (by linarith : (0 : ℚ) ≤ x + 2)]
      · push_neg at h3
        have hy2 : -1 ≤ y := le_trans h2 hxy
        have hy : softClip y = 1.5 * y - 0.5 * y * y * y := by
          simp [softClip, not_lt.mpr h3, not_lt.mpr hy2]
        rw [hx, hy]
        have haux : 0 ≤ 3 - (x * x + x * y + y * y) := by
          nlinarith [sq_nonneg (x - y),
            mul_nonneg (by linarith : (0 : ℚ) ≤ 1 - x) (by linarith : (0 : ℚ) ≤ 1 + x),
            mul_nonneg (by linarith : (0 : ℚ) ≤ 1 - y) (by linarith : (0 : ℚ) ≤ 1 + y)]
        nlinarith [mul_nonneg (sub_nonneg.mpr hxy) haux]

theorem softClip_cubic (x : ℚ) (hl : -1 ≤ x) (hr : x ≤ 1) :
    softClip x = 1.5 * x - 0.5 * x * x * x ∧ |softClip x - 1.5 * x| = |x| ^ 3 / 2 := by
  have hx : softClip x = 1.5 * x - 0.5 * x * x * x := by
    simp [softClip, not_lt.mpr hr, not_lt.mpr hl]
  refine ⟨hx, ?_⟩
  rw [hx]
  have h : 1.5 * x - 0.5 * x * x * x - 1.5 * x = -(x ^ 3) / 2 := by ring
  rw [h, abs_div, abs_neg, abs_pow]
  norm_num

/-- Claim C4, counterexample: softClip does not map near-zero inputs through
approximately unchanged — the cubic branch has slope 1.5 at 0, so the output
exceeds the input by more than 49 percent of the input, and the relative
excess persists arbitrarily close to 0 (shown at inputs 1/100 and 1/1000). -/
theorem softClip_cex :
    softClip (1 / 100) = 29999 / 2000000 ∧
    49 / 100 * (1 / 100) < softClip (1 / 100) - 1 / 100 ∧
    49 / 100 * (1 / 1000) < softClip (1 / 1000) - 1 / 1000 := by
  have h1 : softClip (1 / 100 : ℚ) = 29999 / 2000000 := by norm_num [softClip]
  have h2 : softClip (1 / 1000 : ℚ) = 2999999 / 2000000000 := by norm_num [softClip]
  refine ⟨h1, by rw [h1]; norm_num, by rw [h2]; norm_num⟩

/-- Claim C4, amended: softClip always lies in [-1,1] and is monotonic
non-decreasing; on [-1,1] it is the cubic 1.5x - 0.5x^3, whose deviation from
1.5x (not from x) is |x|^3/2, so near-zero inputs are amplified by a factor
approaching 1.5 rather than passed through unchanged. -/
theorem softClip_amended (x y : ℚ) :
    (-1 ≤ softClip x ∧ softClip x ≤ 1) ∧
    (x ≤ y → softClip x ≤ softClip y) ∧
    (-1 ≤ x → x ≤ 1 →
      softClip x = 1.5 * x - 0.5 * x * x * x ∧ |softClip x - 1.5 * x| = |x| ^ 3 / 2) :=
  ⟨softClip_bounds x, softClip_mono x y, softClip_cubic x⟩

/-- Witness for softClip_amended at x = 1/2, y = 3/4. -/
theorem softClip_amended_witness :
    ((1 : ℚ) / 2 ≤ 3 / 4) ∧ softClip (1 / 2) ≤ softClip (3 / 4) ∧
    ((-1 : ℚ) ≤ 1 / 2 ∧ (1 : ℚ) / 2 ≤ 1) ∧
    softClip (1 / 2) = 1.5 * (1 / 2) - 0.5 * (1 / 2) * (1 / 2) * (1 / 2) :=
  ⟨by norm_num, (softClip_amended (1 / 2) (3 / 4)).2.1 (by norm_num),
   ⟨by norm_num, by norm_num⟩,
   ((softClip_amended (1 / 2) (3 / 4)).2.2 (by norm_num) (by norm_num)).1⟩

/-- Claim C2: for a fixed BPM in the engine clamp range, the step index is
(samplePos / samplesPerStep) mod 16 with samplesPerStep computed as
sampleRate times 60 over BPM over 4 in integer arithmetic (the first two
conjuncts tie the code quantity to the spec formula); the index is periodic
with period 16 times samplesPerStep, and within one period the samples of
block k (k below 16) all map to step k, so the index advances 0 through 15
and wraps exactly once per period. -/
theorem step_timing (bpm n q k r : ℕ) (hlo : MinBPM ≤ bpm) (hhi : bpm ≤ MaxBPM) :
    samplesPerBeat bpm = sampleRate * 60 / bpm / 4 ∧
    stepIndex (samplesPerBeat bpm) n = n / samplesPerBeat bpm % 16 ∧
    stepIndex (samplesPerBeat bpm) (n + 16 * samplesPerBeat bpm) =
      stepIndex (samplesPerBeat bpm) n ∧
    (k < 16 → r < samplesPerBeat bpm →
      stepIndex (samplesPerBeat bpm)
        (16 * samplesPerBeat bpm * q + samplesPerBeat bpm * k + r) = k) := by
  have hval : samplesPerBeat bpm = 2646000 / bpm / 4 := by
    unfold samplesPerBeat sampleRate
    norm_num
  have hbpm : 0 < bpm := by
    have : (60 : ℕ) ≤ bpm := hlo
    omega
  have hS : 0 < samplesPerBeat bpm := by
    rw [hval]
    have h2 : 4 ≤ 2646000 / bpm := by
      rw [Nat.le_div_iff_mul_le hbpm]
      have : bpm ≤ 200 := hhi
      omega
    exact Nat.div_pos h2 (by norm_num)
  refine ⟨rfl, rfl, ?_, ?_⟩
  · unfold stepIndex
    rw [Nat.mul_comm 16 (samplesPerBeat bpm),
      Nat.add_mul_div_left n 16 hS, Nat.add_mod_right]
  · intro hk hr
    unfold stepIndex
    have he : 16 * samplesPerBeat bpm * q + samplesPerBeat bpm * k + r =
        samplesPerBeat bpm * (16 * q + k) + r := by ring
    rw [he, Nat.mul_add_div hS, Nat.div_eq_of_lt hr]
    omega

/-- Witness for step_timing at BPM 120, n = 100, q = 2, k = 5, r = 7. -/
theorem step_timing_witness :
    stepIndex (samplesPerBeat 120) (100 + 16 * samplesPerBeat 120) =
      stepIndex (samplesPerBeat 120) 100 ∧
    stepIndex (samplesPerBeat 120)
      (16 * samplesPerBeat 120 * 2 + samplesPerBeat 120 * 5 + 7) = 5 :=
  ⟨(step_timing 120 100 2 5 7 (by decide) (by decide)).2.2.1,
   (step_timing 120 100 2 5 7 (by decide) (by decide)).2.2.2 (by decide) (by decide)⟩

/- Claim C3 helpers. -/

theorem kick_hit_iff (n : ℕ) : hitAt rockKick 5512 n = true ↔ n % 22048 = 0 := by
  have hrk : rockKick = [1, 0, 0, 0, 1, 0, 0, 0, 1, 0, 0, 0, 1, 0, 0, 0] := rfl
  unfold hitAt stepIndex
  rw [hrk]
  simp only [Bool.and_eq_true, beq_iff_eq]
  constructor
  · rintro ⟨h1, h2⟩
    have hlt : n / 5512 % 16 < 16 := Nat.mod_lt _ (by norm_num)
    have h4 : n / 5512 % 16 % 4 = 0 := by
      generalize hg : n / 5512 % 16 = s at h2 hlt
      interval_cases s <;> simp_all
    omega
  · intro h
    have h1 : n % 5512 = 0 := by omega
    have h4 : n / 5512 % 16 = 0 ∨ n / 5512 % 16 = 4 ∨
        n / 5512 % 16 = 8 ∨ n / 5512 % 16 = 12 := by
      omega
    refine ⟨h1, ?_⟩
    rcases h4 with h4 | h4 | h4 | h4 <;> rw [h4] <;> rfl

theorem envAt_hit (patt : List ℕ) (spb m : ℕ) (h : hitAt patt spb m = true) :
    envAt patt spb m = 1 := by
  cases m with
  | zero => simp [envAt, h]
  | succ p => simp [envAt, h]

theorem kick_env_formula :
    ∀ (n k : ℕ), n < 22048 → envAt rockKick 5512 (22048 * k + n) = envDecay ^ n := by
  intro n
  induction n with
  | zero =>
    intro k _
    rw [Nat.add_zero, pow_zero]
    exact envAt_hit _ _ _ ((kick_hit_iff _).2 (Nat.mul_mod_right 22048 k))
  | succ m ih =>
    intro k h
    have hns : 22048 * k + (m + 1) = 22048 * k + m + 1 := by omega
    have hnot : ¬(hitAt rockKick 5512 (22048 * k + m + 1) = true) := by
      rw [kick_hit_iff]
      omega
    rw [hns]
    simp only [envAt]
    rw [if_neg hnot, ih k (by omega), pow_succ]

/-- Claim C3: with the Rock Solid kick row (hits exactly at the steps that
are 0 mod 4, that is steps 0, 4, 8, 12) and BPM fixed at 120, samplesPerStep
is 5512; the envelope value set by the trigger phase equals 1.0 at sample 0
and at sample 22048, and n samples after any trigger (before the next
trigger, which is 22048 samples later) it equals 0.9997 to the power n. -/
theorem kick_envelope (k n : ℕ) (hn : n < 22048) :
    samplesPerBeat DefaultBPM = 5512 ∧
    (∀ s, s < 16 → (rockKick.getD s 0 = 1 ↔ s % 4 = 0)) ∧
    envAt rockKick (samplesPerBeat DefaultBPM) 0 = 1 ∧
    envAt rockKick (samplesPerBeat DefaultBPM) 22048 = 1 ∧
    envAt rockKick (samplesPerBeat DefaultBPM) (22048 * k + n) = envDecay ^ n := by
  have hspb : samplesPerBeat DefaultBPM = 5512 := rfl
  rw [hspb]
  refine ⟨rfl, ?_, ?_, ?_, kick_env_formula n k hn⟩
  · intro s hs
    interval_cases s <;> decide
  · have h := kick_env_formula 0 0 (by norm_num)
    simpa using h
  · have h := kick_env_formula 0 1 (by norm_num)
    simpa using h

/-- Witness for kick_envelope at k = 1, n = 3. -/
theorem kick_envelope_witness :
    (3 < 22048) ∧
    envAt rockKick (samplesPerBeat DefaultBPM) (22048 * 1 + 3) = envDecay ^ 3 :=
  ⟨by decide, (kick_envelope 1 3 (by decide)).2.2.2.2⟩

end MidiMixer
